import Mathlib

/-!
Shallow embedding of `interfaz_wav.py` (repository PA_interfaz): a Tkinter
application that loads a WAV file, normalizes its 16-bit PCM samples,
derives a time axis with `np.linspace`, plots the waveform, and wires two
buttons (export the figure, play the audio file).

Numbers: raw samples are integers (numpy int16 values, wrapped modulo 2^16
into the signed range); normalized samples are rationals, with explicit
constructors for the IEEE special values NaN and ±inf that numpy produces
on division by zero (numpy emits a warning but does not raise).
-/

namespace Interfaz

/-- Observable side effects of the application: console prints, figure
serialization (`fig.savefig`), and the OS playback call
(`winsound.PlaySound`). -/
inductive Effect where
  | print (msg : String)
  | savefig (path : String)
  | playSound (path : String)
deriving DecidableEq, Repr

/-- Result of a float division in numpy: an ordinary value, or NaN / signed
infinity when the divisor is zero (numpy warns, it does not raise). -/
inductive RFloat where
  | nan
  | inf (neg : Bool)
  | val (q : ℚ)
deriving DecidableEq, Repr

/-- The value `self.audio_data` holds: the raw int16 buffer (right after
`np.frombuffer`, before normalization succeeds) or the normalized floats. -/
inductive AudioData where
  | raw (xs : List ℤ)
  | norm (xs : List RFloat)
deriving DecidableEq, Repr

/-- The mutable attributes of `AudioApp` that the claims mention.
`none` models a Python attribute still holding `None`. -/
structure AppState where
  wav_file_name : String
  audio_data : Option AudioData
  sampling_rate : Option ℕ
  time : Option (List ℚ)
deriving DecidableEq, Repr

/-- The state right after `__init__` sets the defaults (lines 52-57). -/
def initState : AppState :=
  { wav_file_name := "u.wav", audio_data := none, sampling_rate := none,
    time := none }

/-- What `wave.open` exposes of a readable WAV file: the frame rate, the
channel count and the raw sample bytes that `readframes(-1)` returns
(16-bit PCM: two bytes per sample, little endian). -/
structure WavFile where
  framerate : ℕ
  nchannels : ℕ
  bytes : List ℕ
deriving DecidableEq, Repr

/-- Exceptions that the `try` block of `load_audio` can raise. -/
inductive PyErr where
  | fileNotFound
  | bufferSizeError
  | zeroSizeMax
  | zeroDivision
deriving DecidableEq, Repr

/-- Message printed by the `except` clause of `load_audio`. -/
def errMsg : PyErr → String
  | PyErr.fileNotFound => "file not found"
  | PyErr.bufferSizeError => "buffer size must be a multiple of element size"
  | PyErr.zeroSizeMax => "zero-size array to reduction operation maximum"
  | PyErr.zeroDivision => "division by zero"

/-- Wrap an integer into the signed 16-bit range, as numpy int16 does. -/
def toInt16 (n : ℤ) : ℤ := (n + 32768) % 65536 - 32768

/-- The signed 16-bit value of a little-endian byte pair, as
`np.frombuffer(-, dtype=np.int16)` interprets it. -/
def int16val (lo hi : ℕ) : ℤ := toInt16 ((lo : ℤ) + 256 * hi)

/-- Group a byte sequence into little-endian pairs; `none` models the
ValueError `np.frombuffer` raises when the length is not a multiple of
the element size. -/
def pairBytes : List ℕ → Option (List (ℕ × ℕ))
  | [] => some []
  | [_] => none
  | lo :: hi :: rest => (pairBytes rest).map (fun ps => (lo, hi) :: ps)

/-- `np.frombuffer(data, dtype=np.int16)`: all bytes, two at a time,
little endian, signed. -/
def frombufferInt16 (bs : List ℕ) : Option (List ℤ) :=
  (pairBytes bs).map (List.map (fun p => int16val p.1 p.2))

/-- `np.abs` on an int16 value: the absolute value wraps back into int16,
so `np.abs(-32768) = -32768`. -/
def npAbsInt16 (x : ℤ) : ℤ := toInt16 |x|

/-- `np.max` of a sequence; `none` models the ValueError numpy raises on a
zero-size array. -/
def npMax : List ℤ → Option ℤ
  | [] => none
  | x :: xs => some (xs.foldl max x)

/-- Float division of two integers: NaN or ±inf when the divisor is zero
(numpy warns but returns), an exact rational otherwise. -/
def fdiv (x m : ℤ) : RFloat :=
  if m = 0 then (if x = 0 then RFloat.nan else RFloat.inf (decide (x < 0)))
  else RFloat.val ((x : ℚ) / (m : ℚ))

/-- Whether a normalized sample is an ordinary value inside [-1, 1]. -/
def inUnitB : RFloat → Bool
  | RFloat.val q => decide (-1 ≤ q ∧ q ≤ 1)
  | _ => false

/-- `np.linspace(0, stop, num)` with the default inclusive endpoint:
`num` evenly spaced points; for `num = 1` numpy returns `[0]`. -/
def linspace (stop : ℚ) (num : ℕ) : List ℚ :=
  if num = 1 then [0]
  else (List.range num).map (fun i : ℕ => stop * (i : ℚ) / ((num - 1 : ℕ) : ℚ))

/-- The body of the `try` block of `load_audio` (lines 73-87), threaded
through the partial assignments to `self`: opening the file, decoding the
buffer, normalizing by the max absolute value, and building the time axis.
Returns the state reached together with the exception raised, if any;
assignments made before the exception persist, as in Python. -/
def loadBody (file : Option WavFile) (s : AppState) : AppState × Option PyErr :=
  match file with
  | none => (s, some PyErr.fileNotFound)
  | some f =>
    let s1 := { s with sampling_rate := some f.framerate }
    match frombufferInt16 f.bytes with
    | none => (s1, some PyErr.bufferSizeError)
    | some raws =>
      let s2 := { s1 with audio_data := some (AudioData.raw raws) }
      match npMax (raws.map npAbsInt16) with
      | none => (s2, some PyErr.zeroSizeMax)
      | some m =>
        let normed := raws.map (fun x => fdiv x m)
        let s3 := { s2 with audio_data := some (AudioData.norm normed) }
        if f.framerate = 0 then (s3, some PyErr.zeroDivision)
        else
          (({ s3 with
              time := some (linspace ((normed.length : ℚ) / (f.framerate : ℚ))
                normed.length) }), none)

/-- `load_audio` (lines 67-89): run the body; the bare `except Exception`
turns any exception into a console print and returns normally. `file` is
the content of the file system at `self.wav_file_name` (`none`: the file
is missing or unreadable by `wave.open`). -/
def load_audio (file : Option WavFile) (s : AppState) :
    AppState × List Effect :=
  match loadBody file s with
  | (s2, none) => (s2, [])
  | (s2, some e) => (s2, [Effect.print ("Error loading audio: " ++ errMsg e)])

/-- The matplotlib figure attributes the claims mention. Each entry of
`lines` is the `(x, y)` data handed to `ax.plot`; matplotlib stores the
data at plot time, so unset (`None`) data is recorded as such. -/
structure Figure where
  lines : List (Option (List ℚ) × Option AudioData)
  xlabel : String
  ylabel : String
  title : String
  grid : Bool
deriving DecidableEq, Repr

/-- The figure as `plt.subplots` creates it (line 60). -/
def emptyFigure : Figure :=
  { lines := [], xlabel := "", ylabel := "", title := "", grid := false }

/-- `plot_audio` (lines 91-99): draw `(self.time, self.audio_data)` as a
line plot, set the axis labels and title, enable the grid. -/
def plot_audio (s : AppState) (fig : Figure) : Figure :=
  { fig with
    lines := fig.lines ++ [(s.time, s.audio_data)]
    xlabel := "Tiempo [s]"
    ylabel := "Amplitud"
    title := "Onda Sonora"
    grid := true }

/-- `__init__` (lines 46-65): set the default attributes, then call
`load_audio` and — unconditionally — `plot_audio`. Returns the final
state, the figure, and the emitted effects. -/
def appInit (file : Option WavFile) : AppState × Figure × List Effect :=
  let la := load_audio file initState
  (la.1, plot_audio la.1 emptyFigure, la.2)

/-- `guardar_imagen_completa` (lines 119-130): `dialogResult` is what
`filedialog.asksaveasfilename` returned (the empty string on cancel,
which is falsy in Python); on a chosen path the figure is serialized there
and the path is printed. -/
def guardar_imagen_completa (dialogResult : String) : List Effect :=
  if dialogResult = "" then []
  else [Effect.savefig dialogResult,
        Effect.print ("Imagen guardada: " ++ dialogResult)]

/-- How the `winsound.PlaySound` call inside `reproducir_audio` can go:
it succeeds, the name `winsound` is undefined (NameError on non-Windows,
the call never reaches the OS), or the OS call itself fails
(missing or corrupt file). -/
inductive PlayOutcome where
  | ok
  | apiMissing (msg : String)
  | playFailed (msg : String)
deriving DecidableEq, Repr

/-- `reproducir_audio` (lines 132-139): attempt the blocking OS playback
of `self.wav_file_name`; any exception is caught and printed. -/
def reproducir_audio (s : AppState) (o : PlayOutcome) : List Effect :=
  match o with
  | PlayOutcome.ok => [Effect.playSound s.wav_file_name]
  | PlayOutcome.apiMissing m =>
      [Effect.print ("Error reproduciendo audio: " ++ m)]
  | PlayOutcome.playFailed m =>
      [Effect.playSound s.wav_file_name,
       Effect.print ("Error reproduciendo audio: " ++ m)]

/-! Helper lemmas about the embedded numpy operations. -/

theorem self_le_foldl_max (l : List ℤ) : ∀ b : ℤ, b ≤ l.foldl max b := by
  induction l with
  | nil => intro b; exact le_refl b
  | cons x xs ih =>
      intro b
      exact le_trans (le_max_left b x) (ih (max b x))

theorem le_foldl_max_of_mem (l : List ℤ) :
    ∀ (b a : ℤ), a ∈ l → a ≤ l.foldl max b := by
  induction l with
  | nil => intro b a ha; cases ha
  | cons x xs ih =>
      intro b a ha
      rcases List.mem_cons.mp ha with h | h
      · subst h
        exact le_trans (le_max_right b a) (self_le_foldl_max xs (max b a))
      · exact ih (max b x) a h

theorem foldl_max_mem (l : List ℤ) :
    ∀ b : ℤ, l.foldl max b = b ∨ l.foldl max b ∈ l := by
  induction l with
  | nil => intro b; exact Or.inl rfl
  | cons x xs ih =>
      intro b
      rcases ih (max b x) with h | h
      · rcases max_choice b x with hb | hx
        · exact Or.inl (by rw [List.foldl_cons, h, hb])
        · refine Or.inr (List.mem_cons.mpr (Or.inl ?_))
          rw [List.foldl_cons, h, hx]
      · exact Or.inr (List.mem_cons.mpr (Or.inr h))

theorem npMax_spec (x : ℤ) (xs : List ℤ) (m : ℤ)
    (h : npMax (x :: xs) = some m) :
    m ∈ x :: xs ∧ ∀ a ∈ x :: xs, a ≤ m := by
  have hm : m = xs.foldl max x := by
    simpa [npMax] using h.symm
  constructor
  · rcases foldl_max_mem xs x with h1 | h1
    · exact List.mem_cons.mpr (Or.inl (hm.trans h1))
    · exact List.mem_cons.mpr (Or.inr (hm ▸ h1))
  · intro a ha
    rcases List.mem_cons.mp ha with h1 | h1
    · subst h1; exact hm ▸ self_le_foldl_max xs a
    · exact hm ▸ le_foldl_max_of_mem xs x a h1

theorem pairBytes_flatten :
    ∀ (bs : List ℕ) (ps : List (ℕ × ℕ)), pairBytes bs = some ps →
      bs = ps.flatMap (fun p => [p.1, p.2]) ∧ bs.length = 2 * ps.length
  | [], ps, h => by
      simp [pairBytes] at h
      subst h
      simp
  | [x], ps, h => by
      simp [pairBytes] at h
  | lo :: hi :: rest, ps, h => by
      simp only [pairBytes, Option.map_eq_some'] at h
      rcases h with ⟨qs, hqs, hps⟩
      rcases pairBytes_flatten rest qs hqs with ⟨h1, h2⟩
      subst hps
      constructor
      · simp [List.flatMap_cons, h1]
      · simp only [List.length_cons, h2, List.length_cons]
        ring

theorem pairBytes_total :
    ∀ bs : List ℕ, bs.length % 2 = 0 → ∃ ps, pairBytes bs = some ps
  | [], _ => ⟨[], rfl⟩
  | [x], h => by simp at h
  | lo :: hi :: rest, h => by
      have hr : rest.length % 2 = 0 := by
        simp only [List.length_cons] at h
        omega
      rcases pairBytes_total rest hr with ⟨qs, hqs⟩
      exact ⟨(lo, hi) :: qs, by simp [pairBytes, hqs]⟩

theorem int16val_range (lo hi : ℕ) :
    -32768 ≤ int16val lo hi ∧ int16val lo hi ≤ 32767 := by
  unfold int16val toInt16
  have h0 : 0 ≤ ((lo : ℤ) + 256 * hi + 32768) % 65536 :=
    Int.emod_nonneg _ (by norm_num)
  have h1 : ((lo : ℤ) + 256 * hi + 32768) % 65536 < 65536 :=
    Int.emod_lt_of_pos _ (by norm_num)
  omega

theorem frombufferInt16_range (bs : List ℕ) (raws : List ℤ)
    (h : frombufferInt16 bs = some raws) :
    ∀ x ∈ raws, -32768 ≤ x ∧ x ≤ 32767 := by
  intro x hx
  simp only [frombufferInt16, Option.map_eq_some'] at h
  rcases h with ⟨ps, _, hmap⟩
  subst hmap
  rcases List.mem_map.mp hx with ⟨p, _, hp⟩
  exact hp ▸ int16val_range p.1 p.2

theorem npAbsInt16_eq_abs (x : ℤ) (h1 : -32768 ≤ x) (h2 : x ≤ 32767)
    (h3 : x ≠ -32768) : npAbsInt16 x = |x| := by
  unfold npAbsInt16 toInt16
  rcases le_or_lt 0 x with hx | hx
  · rw [abs_of_nonneg hx]; omega
  · rw [abs_of_neg hx]; omega

theorem linspace_length (stop : ℚ) (num : ℕ) :
    (linspace stop num).length = num := by
  unfold linspace
  by_cases h : num = 1
  · simp [h]
  · rw [if_neg h, List.length_map, List.length_range]

theorem linspace_getElem (stop : ℚ) (num i : ℕ) (h2 : 2 ≤ num)
    (hi : i < (linspace stop num).length) :
    (linspace stop num)[i] = stop * i / ((num - 1 : ℕ) : ℚ) := by
  have hne : num ≠ 1 := by omega
  simp only [linspace, if_neg hne, List.getElem_map, List.getElem_range]

theorem linspace_head? (stop : ℚ) (num : ℕ) (h1 : 1 ≤ num) :
    (linspace stop num).head? = some 0 := by
  unfold linspace
  by_cases h : num = 1
  · simp [h]
  · obtain ⟨k, rfl⟩ : ∃ k, num = k + 1 := ⟨num - 1, by omega⟩
    rw [if_neg h, List.range_succ_eq_map]
    simp

theorem linspace_getLast? (stop : ℚ) (num : ℕ) (h2 : 2 ≤ num) :
    (linspace stop num).getLast? = some stop := by
  have hlen : (linspace stop num).length = num := linspace_length stop num
  have hidx : num - 1 < (linspace stop num).length := by omega
  rw [List.getLast?_eq_getElem?, hlen, List.getElem?_eq_getElem hidx,
    linspace_getElem stop num (num - 1) h2 hidx]
  have hcast : ((num - 1 : ℕ) : ℚ) ≠ 0 := by
    have : (0 : ℕ) < num - 1 := by omega
    exact_mod_cast Nat.pos_iff_ne_zero.mp this
  rw [mul_div_assoc, div_self hcast, mul_one]

/-! Helper lemmas about `loadBody` and `load_audio`. -/

theorem load_audio_fst (file : Option WavFile) (s : AppState) :
    (load_audio file s).1 = (loadBody file s).1 := by
  unfold load_audio
  rcases h : loadBody file s with ⟨s2, e⟩
  cases e <;> simp

theorem load_audio_effects (file : Option WavFile) (s : AppState) :
    ∀ e ∈ (load_audio file s).2, ∃ msg, e = Effect.print msg := by
  unfold load_audio
  rcases h : loadBody file s with ⟨s2, err⟩
  cases err <;> simp

theorem loadBody_success (f : WavFile) (s : AppState) (raws : List ℤ) (m : ℤ)
    (hdec : frombufferInt16 f.bytes = some raws)
    (hm : npMax (raws.map npAbsInt16) = some m)
    (hfr : f.framerate ≠ 0) :
    loadBody (some f) s =
      ({ s with
          sampling_rate := some f.framerate
          audio_data := some (AudioData.norm (raws.map (fun x => fdiv x m)))
          time := some (linspace ((raws.length : ℚ) / (f.framerate : ℚ))
            raws.length) }, none) := by
  simp [loadBody, hdec, hm, hfr]

theorem loadBody_audio_norm (f : WavFile) (s : AppState) (raws : List ℤ)
    (m : ℤ) (hdec : frombufferInt16 f.bytes = some raws)
    (hm : npMax (raws.map npAbsInt16) = some m) :
    ((loadBody (some f) s).1).audio_data =
      some (AudioData.norm (raws.map (fun x => fdiv x m))) := by
  simp only [loadBody, hdec, hm]
  by_cases hfr : f.framerate = 0
  · simp [hfr]
  · simp [hfr]

theorem loadBody_err_none (f : WavFile) (s : AppState)
    (h : (loadBody (some f) s).2 = none) :
    ∃ raws m, frombufferInt16 f.bytes = some raws ∧
      npMax (raws.map npAbsInt16) = some m ∧ f.framerate ≠ 0 := by
  rcases hd : frombufferInt16 f.bytes with _ | raws
  · simp [loadBody, hd] at h
  · rcases hm : npMax (raws.map npAbsInt16) with _ | m
    · simp [loadBody, hd, hm] at h
    · by_cases hfr : f.framerate = 0
      · simp [loadBody, hd, hm, hfr] at h
      · exact ⟨raws, m, rfl, hm, hfr⟩

/-! Claim theorems. -/

/-- Claim C2: the claim says a failed load must never reach the Renderer,
but `__init__` calls `plot_audio` unconditionally after `load_audio`
returns. At the failing input (the audio file missing), the load error
is caught and printed, all buffers stay `None`, and the figure
nevertheless is exactly `plot_audio` applied to the failed state: it
carries one plotted line whose data is the unset `(None, None)` pair. -/
theorem C2_renderer_invoked_after_failed_load :
    (appInit none).1.audio_data = none ∧
    (appInit none).1.time = none ∧
    (appInit none).2.2 =
      [Effect.print ("Error loading audio: " ++ errMsg PyErr.fileNotFound)] ∧
    (appInit none).2.1 = plot_audio (appInit none).1 emptyFigure ∧
    (appInit none).2.1.lines = [(none, none)] ∧
    (appInit none).2.1.title = "Onda Sonora" :=
  ⟨rfl, rfl, rfl, rfl, rfl, rfl⟩

/-- Claim C4: after every load that runs without error (no error print),
the time axis and the sample sequence exist and have identical length. -/
theorem C4_time_and_samples_same_length (f : WavFile) (s : AppState)
    (h : (load_audio (some f) s).2 = []) :
    ∃ ts ys, ((load_audio (some f) s).1).time = some ts ∧
      ((load_audio (some f) s).1).audio_data = some (AudioData.norm ys) ∧
      ts.length = ys.length := by
  have herr : (loadBody (some f) s).2 = none := by
    rcases hb : loadBody (some f) s with ⟨s2, e⟩
    cases e with
    | none => rfl
    | some e =>
        exfalso
        simp [load_audio, hb] at h
  obtain ⟨raws, m, hdec, hm, hfr⟩ := loadBody_err_none f s herr
  rw [load_audio_fst, loadBody_success f s raws m hdec hm hfr]
  exact ⟨_, _, rfl, rfl, by rw [linspace_length, List.length_map]⟩

/-- Witness for C4 at a concrete two-sample, 1 Hz file. -/
theorem C4_witness :
    (load_audio (some (WavFile.mk 1 1 [100, 0, 200, 0])) initState).2 = [] ∧
    ∃ ts ys,
      ((load_audio (some (WavFile.mk 1 1 [100, 0, 200, 0])) initState).1).time
        = some ts ∧
      ((load_audio (some (WavFile.mk 1 1 [100, 0, 200, 0]))
        initState).1).audio_data = some (AudioData.norm ys) ∧
      ts.length = ys.length :=
  ⟨by decide,
   C4_time_and_samples_same_length (WavFile.mk 1 1 [100, 0, 200, 0]) initState
     (by decide)⟩

/-- Claim C5: `guardar_imagen_completa` serializes the figure if and only
if the dialog returned a non-empty path; cancelling produces no effect at
all, a chosen path produces exactly the file write and the console
report. -/
theorem C5_export_iff_path_chosen (p : String) :
    ((∃ q, Effect.savefig q ∈ guardar_imagen_completa p) ↔ p ≠ "") ∧
    (p = "" → guardar_imagen_completa p = []) ∧
    (p ≠ "" → guardar_imagen_completa p =
      [Effect.savefig p, Effect.print ("Imagen guardada: " ++ p)]) := by
  by_cases hp : p = "" <;> simp [guardar_imagen_completa, hp]

/-- Witness for C5: cancelled dialog writes nothing; a chosen path is
written and reported. -/
theorem C5_witness :
    guardar_imagen_completa "" = [] ∧
    guardar_imagen_completa "onda.png" =
      [Effect.savefig "onda.png",
       Effect.print ("Imagen guardada: " ++ "onda.png")] :=
  ⟨(C5_export_iff_path_chosen "").2.1 rfl,
   (C5_export_iff_path_chosen "onda.png").2.2 (by decide)⟩

/-- Claim C6: every playback attempt names `self.wav_file_name` (the
original path — the result does not depend on the in-memory buffers), and
every failure, including the missing `winsound` module, is caught and
turned into a console print, so the call always returns normally. -/
theorem C6_playback_by_path_and_errors_logged (s s2 : AppState)
    (o : PlayOutcome) (hname : s2.wav_file_name = s.wav_file_name) :
    (∀ p, Effect.playSound p ∈ reproducir_audio s o →
      p = s.wav_file_name) ∧
    reproducir_audio s2 o = reproducir_audio s o ∧
    (∀ m, reproducir_audio s (PlayOutcome.apiMissing m) =
        [Effect.print ("Error reproduciendo audio: " ++ m)] ∧
      reproducir_audio s (PlayOutcome.playFailed m) =
        [Effect.playSound s.wav_file_name,
         Effect.print ("Error reproduciendo audio: " ++ m)]) := by
  refine ⟨?_, ?_, fun m => ⟨rfl, rfl⟩⟩
  · intro p hp
    cases o <;> simp [reproducir_audio] at hp <;> tauto
  · cases o <;> simp [reproducir_audio, hname]

/-- Witness for C6: two states sharing the path but holding different
buffers produce the same playback effects on a failing play call. -/
theorem C6_witness :
    reproducir_audio
        { initState with audio_data := some (AudioData.raw [7]) }
        (PlayOutcome.playFailed "bad file") =
      reproducir_audio initState (PlayOutcome.playFailed "bad file") :=
  (C6_playback_by_path_and_errors_logged initState
    { initState with audio_data := some (AudioData.raw [7]) }
    (PlayOutcome.playFailed "bad file") rfl).2.1

/-- Claim C7 counterexample: the rendered labels and title are the Spanish
strings of the source, not the English ones the claim states. -/
theorem C7_counterexample :
    (plot_audio initState emptyFigure).xlabel = "Tiempo [s]" ∧
    "Tiempo [s]" ≠ "Time [s]" ∧
    (plot_audio initState emptyFigure).ylabel = "Amplitud" ∧
    "Amplitud" ≠ "Amplitude" ∧
    (plot_audio initState emptyFigure).title = "Onda Sonora" ∧
    "Onda Sonora" ≠ "Sound Wave" :=
  ⟨rfl, by decide, rfl, by decide, rfl, by decide⟩

/-- Claim C7 (amended): for every state and figure, `plot_audio` draws the
amplitude-versus-time line and sets xlabel "Tiempo [s]", ylabel
"Amplitud", title "Onda Sonora", and a visible grid. -/
theorem C7_renderer_amended (s : AppState) (fig : Figure) :
    (plot_audio s fig).xlabel = "Tiempo [s]" ∧
    (plot_audio s fig).ylabel = "Amplitud" ∧
    (plot_audio s fig).title = "Onda Sonora" ∧
    (plot_audio s fig).grid = true ∧
    (plot_audio s fig).lines = fig.lines ++ [(s.time, s.audio_data)] :=
  ⟨rfl, rfl, rfl, rfl, rfl⟩

/-- Witness for C7 at the startup state and the fresh figure. -/
theorem C7_witness :
    (plot_audio initState emptyFigure).grid = true :=
  (C7_renderer_amended initState emptyFigure).2.2.2.1

/-- Claim C8: on a decodable buffer, the loader consumes the byte sequence
exactly as consecutive little-endian pairs, each interpreted as a signed
16-bit integer (so every decoded sample lies in [-32768, 32767] and the
sample count is half the byte count), and these are the values the
subsequent normalization divides. -/
theorem C8_all_frames_as_signed_int16 (f : WavFile) (raws : List ℤ)
    (hdec : frombufferInt16 f.bytes = some raws) :
    (∃ ps : List (ℕ × ℕ), f.bytes = ps.flatMap (fun p => [p.1, p.2]) ∧
      raws = ps.map (fun p => int16val p.1 p.2)) ∧
    (∀ x ∈ raws, -32768 ≤ x ∧ x ≤ 32767) ∧
    2 * raws.length = f.bytes.length ∧
    (∀ (m : ℤ) (s : AppState), npMax (raws.map npAbsInt16) = some m →
      ((load_audio (some f) s).1).audio_data =
        some (AudioData.norm (raws.map (fun x => fdiv x m)))) := by
  have hps := hdec
  simp only [frombufferInt16, Option.map_eq_some'] at hps
  rcases hps with ⟨ps, hps, hmap⟩
  rcases pairBytes_flatten f.bytes ps hps with ⟨hflat, hlen⟩
  refine ⟨⟨ps, hflat, hmap.symm⟩, frombufferInt16_range f.bytes raws hdec,
    ?_, ?_⟩
  · rw [← hmap, List.length_map, hlen]
  · intro m s hm
    rw [load_audio_fst]
    exact loadBody_audio_norm f s raws m hdec hm

/-- Witness for C8 at a concrete four-byte buffer holding the samples
100 and 200. -/
theorem C8_witness :
    2 * ([100, 200] : List ℤ).length =
      (WavFile.mk 8000 1 [100, 0, 200, 0]).bytes.length :=
  (C8_all_frames_as_signed_int16 (WavFile.mk 8000 1 [100, 0, 200, 0])
    [100, 200] (by decide)).2.2.1

/-- The byte pairs of an all-zero buffer of even length. -/
theorem pairBytes_replicate_zero :
    ∀ n : ℕ, pairBytes (List.replicate (2 * n) 0) =
      some (List.replicate n ((0 : ℕ), (0 : ℕ)))
  | 0 => rfl
  | n + 1 => by
      have h : 2 * (n + 1) = (2 * n) + 1 + 1 := by ring
      rw [h, List.replicate_succ, List.replicate_succ]
      simp [pairBytes, pairBytes_replicate_zero n, List.replicate_succ]

/-- Folding `max` over zeros from zero stays zero. -/
theorem foldl_max_replicate_zero :
    ∀ k : ℕ, (List.replicate k (0 : ℤ)).foldl max 0 = 0
  | 0 => rfl
  | k + 1 => by
      rw [List.replicate_succ, List.foldl_cons, max_self]
      exact foldl_max_replicate_zero k

/-- Claim C9: `load_audio` never lets an exception escape — every error
becomes a console print — and a non-empty all-zero (silent) file is
processed without any error at all, each sample becoming NaN (0/0),
rather than raising an EmptySignalError. -/
theorem C9_never_raises_and_silent_gives_nan :
    (∀ (inp : Option WavFile) (s : AppState),
      ∀ e ∈ (load_audio inp s).2, ∃ msg, e = Effect.print msg) ∧
    (∀ (f : WavFile) (n : ℕ) (s : AppState), 0 < n → f.framerate ≠ 0 →
      f.bytes = List.replicate (2 * n) 0 →
      (loadBody (some f) s).2 = none ∧
      ((load_audio (some f) s).1).audio_data =
        some (AudioData.norm (List.replicate n RFloat.nan))) := by
  refine ⟨load_audio_effects, ?_⟩
  intro f n s hn hfr hbytes
  have hdec : frombufferInt16 f.bytes = some (List.replicate n (0 : ℤ)) := by
    rw [hbytes]
    simp only [frombufferInt16, pairBytes_replicate_zero n, Option.map_some',
      List.map_replicate]
    rfl
  have habs : (List.replicate n (0 : ℤ)).map npAbsInt16 =
      List.replicate n (0 : ℤ) := by
    rw [List.map_replicate]
    rfl
  obtain ⟨k, rfl⟩ : ∃ k, n = k + 1 := ⟨n - 1, by omega⟩
  have hm : npMax ((List.replicate (k + 1) (0 : ℤ)).map npAbsInt16) =
      some 0 := by
    rw [habs, List.replicate_succ]
    simp only [npMax, Option.some.injEq]
    exact foldl_max_replicate_zero k
  have hsucc := loadBody_success f s (List.replicate (k + 1) 0) 0 hdec hm hfr
  constructor
  · rw [hsucc]
  · rw [load_audio_fst, hsucc]
    simp only [List.map_replicate]
    rfl

/-- Witness for C9 at a concrete silent two-sample file. -/
theorem C9_witness :
    ((load_audio (some (WavFile.mk 8000 1 (List.replicate 4 0)))
        initState).1).audio_data =
      some (AudioData.norm (List.replicate 2 RFloat.nan)) :=
  ((C9_never_raises_and_silent_gives_nan).2
    (WavFile.mk 8000 1 (List.replicate 4 0)) 2 initState (by decide)
    (by decide) rfl).2

/-- Division by the maximum yields exactly 1 when the sample equals it. -/
theorem fdiv_self_one (x m : ℤ) (hm : m ≠ 0) (hx : x = m) :
    fdiv x m = RFloat.val 1 := by
  have hq : ((m : ℚ)) ≠ 0 := Int.cast_ne_zero.mpr hm
  rw [fdiv, if_neg hm, hx, div_self hq]

/-- Division by the maximum yields exactly -1 when the sample is its
negation. -/
theorem fdiv_neg_self_one (x m : ℤ) (hm : m ≠ 0) (hx : x = -m) :
    fdiv x m = RFloat.val (-1) := by
  have hq : ((m : ℚ)) ≠ 0 := Int.cast_ne_zero.mpr hm
  rw [fdiv, if_neg hm, hx]
  rw [Int.cast_neg, neg_div, div_self hq]

/-- Claim C1 counterexample: the four-byte file holding the samples
-32768 and 100 is a valid 16-bit PCM input that `load_audio` accepts, yet
numpy's int16 absolute value wraps `|-32768|` back to -32768, so the
computed maximum is 100 and the first normalized sample is
-32768/100 = -327.68, far outside [-1, 1]. -/
theorem C1_counterexample :
    ((load_audio (some (WavFile.mk 8000 1 [0, 128, 100, 0]))
        initState).1).audio_data =
      some (AudioData.norm [RFloat.val ((-8192 : ℚ) / 25), RFloat.val 1]) ∧
    inUnitB (RFloat.val ((-8192 : ℚ) / 25)) = false := by
  have hdec : frombufferInt16 (WavFile.mk 8000 1 [0, 128, 100, 0]).bytes =
      some [-32768, 100] := by decide
  have hm : npMax (([-32768, 100] : List ℤ).map npAbsInt16) = some 100 := by
    decide
  constructor
  · rw [load_audio_fst,
      loadBody_audio_norm (WavFile.mk 8000 1 [0, 128, 100, 0]) initState
        [-32768, 100] 100 hdec hm]
    norm_num [fdiv]
  · simp only [inUnitB, decide_eq_false_iff_not, not_and]
    intro h
    norm_num at h

/-- Claim C1 (amended): for every accepted 16-bit PCM input that contains
a nonzero sample and no sample equal to -32768, every normalized sample
is an ordinary value of absolute value at most 1, and some normalized
sample is exactly 1 or exactly -1 (so the maximum absolute value is
exactly 1). -/
theorem C1_normalized_bounds_amended (f : WavFile) (s : AppState)
    (raws : List ℤ) (m : ℤ)
    (hdec : frombufferInt16 f.bytes = some raws)
    (hm : npMax (raws.map npAbsInt16) = some m)
    (hnz : ∃ x ∈ raws, x ≠ 0)
    (hmin : ∀ x ∈ raws, x ≠ -32768) :
    ∃ ys, ((load_audio (some f) s).1).audio_data =
        some (AudioData.norm ys) ∧
      (∀ y ∈ ys, ∃ q : ℚ, y = RFloat.val q ∧ |q| ≤ 1) ∧
      (RFloat.val 1 ∈ ys ∨ RFloat.val (-1) ∈ ys) := by
  have hrange := frombufferInt16_range f.bytes raws hdec
  have habs : raws.map npAbsInt16 = raws.map (fun x => |x|) := by
    apply List.map_congr_left
    intro a ha
    exact npAbsInt16_eq_abs a (hrange a ha).1 (hrange a ha).2 (hmin a ha)
  have hmabs := hm
  rw [habs] at hmabs
  obtain ⟨x0, hx0mem, hx0ne⟩ := hnz
  rcases hraws : raws with _ | ⟨r, rs⟩
  · rw [hraws] at hx0mem; cases hx0mem
  subst hraws
  rw [List.map_cons] at hmabs
  have hspec := npMax_spec |r| (rs.map (fun x => |x|)) m hmabs
  rw [← List.map_cons] at hspec
  have hle : ∀ x ∈ r :: rs, |x| ≤ m := by
    intro x hx
    exact hspec.2 |x| (List.mem_map_of_mem _ hx)
  have hmpos : 0 < m := by
    have h1 : 1 ≤ |x0| := Int.one_le_abs hx0ne
    have h2 : |x0| ≤ m := hle x0 hx0mem
    omega
  have hmne : m ≠ 0 := by omega
  have hmq : (0 : ℚ) < (m : ℚ) := by exact_mod_cast hmpos
  refine ⟨(r :: rs).map (fun x => fdiv x m), ?_, ?_, ?_⟩
  · rw [load_audio_fst]
    exact loadBody_audio_norm f s (r :: rs) m hdec hm
  · intro y hy
    rcases List.mem_map.mp hy with ⟨x, hxmem, hxeq⟩
    refine ⟨(x : ℚ) / (m : ℚ), ?_, ?_⟩
    · rw [← hxeq, fdiv, if_neg hmne]
    · rw [abs_div, abs_of_pos hmq, div_le_one hmq, ← Int.cast_abs]
      exact_mod_cast hle x hxmem
  · rcases List.mem_map.mp hspec.1 with ⟨x1, hx1mem, hx1eq⟩
    rcases (abs_eq (le_of_lt hmpos)).mp hx1eq with h | h
    · exact Or.inl (List.mem_map.mpr ⟨x1, hx1mem, fdiv_self_one x1 m hmne h⟩)
    · exact Or.inr
        (List.mem_map.mpr ⟨x1, hx1mem, fdiv_neg_self_one x1 m hmne h⟩)

/-- Witness for C1 at a concrete one-sample file holding the value 100. -/
theorem C1_witness :
    ∃ ys, ((load_audio (some (WavFile.mk 8000 1 [100, 0]))
        initState).1).audio_data = some (AudioData.norm ys) ∧
      (∀ y ∈ ys, ∃ q : ℚ, y = RFloat.val q ∧ |q| ≤ 1) ∧
      (RFloat.val 1 ∈ ys ∨ RFloat.val (-1) ∈ ys) :=
  C1_normalized_bounds_amended (WavFile.mk 8000 1 [100, 0]) initState
    [100] 100 (by decide) (by decide) (by decide) (by decide)

/-- Claim C3 counterexample: for the two-sample file at 1 Hz the claim
predicts a last time value of (n-1)/n × (n/sr) = 1, but `np.linspace`
with its default inclusive endpoint produces [0, 2], ending at
n/sr = 2. -/
theorem C3_counterexample :
    ((load_audio (some (WavFile.mk 1 1 [100, 0, 200, 0]))
        initState).1).time = some [0, 2] ∧
    (2 : ℚ) ≠ (((2 : ℚ) - 1) / 2) * ((2 : ℚ) / 1) := by
  have hdec : frombufferInt16 (WavFile.mk 1 1 [100, 0, 200, 0]).bytes =
      some [100, 200] := by decide
  have hm : npMax (([100, 200] : List ℤ).map npAbsInt16) = some 200 := by
    decide
  constructor
  · rw [load_audio_fst,
      loadBody_success (WavFile.mk 1 1 [100, 0, 200, 0]) initState
        [100, 200] 200 hdec hm (by decide)]
    show some (linspace _ _) = _
    norm_num [linspace, List.range_succ]
  · norm_num

/-- Claim C3 (amended): for every error-free load of n ≥ 2 samples the
time axis has n evenly spaced points starting at 0 under numpy's
inclusive-endpoint convention: point i equals (n/sr)·i/(n-1) and the last
value equals n/sr itself. -/
theorem C3_time_axis_amended (f : WavFile) (s : AppState) (raws : List ℤ)
    (hdec : frombufferInt16 f.bytes = some raws)
    (hfr : f.framerate ≠ 0) (hn : 2 ≤ raws.length) :
    ∃ ts, ((load_audio (some f) s).1).time = some ts ∧
      ts.length = raws.length ∧ ts.head? = some 0 ∧
      (∀ i (hi : i < ts.length),
        ts[i] = ((raws.length : ℚ) / (f.framerate : ℚ)) * (i : ℚ) /
          ((raws.length - 1 : ℕ) : ℚ)) ∧
      ts.getLast? = some ((raws.length : ℚ) / (f.framerate : ℚ)) := by
  rcases hraws : raws with _ | ⟨r, rs⟩
  · rw [hraws] at hn; simp at hn
  subst hraws
  obtain ⟨m, hm⟩ : ∃ m, npMax ((r :: rs).map npAbsInt16) = some m :=
    ⟨_, rfl⟩
  rw [load_audio_fst, loadBody_success f s (r :: rs) m hdec hm hfr]
  refine ⟨_, rfl, linspace_length _ _, linspace_head? _ _ (by omega),
    ?_, linspace_getLast? _ _ hn⟩
  intro i hi
  exact linspace_getElem _ _ i hn hi

/-- Witness for C3 at the concrete two-sample, 1 Hz file. -/
theorem C3_witness :
    ∃ ts, ((load_audio (some (WavFile.mk 1 1 [100, 0, 200, 0]))
        initState).1).time = some ts ∧
      ts.length = ([100, 200] : List ℤ).length ∧ ts.head? = some 0 ∧
      (∀ i (hi : i < ts.length),
        ts[i] = ((([100, 200] : List ℤ).length : ℚ) /
            ((WavFile.mk 1 1 [100, 0, 200, 0]).framerate : ℚ)) * (i : ℚ) /
          ((([100, 200] : List ℤ).length - 1 : ℕ) : ℚ)) ∧
      ts.getLast? = some ((([100, 200] : List ℤ).length : ℚ) /
        ((WavFile.mk 1 1 [100, 0, 200, 0]).framerate : ℚ)) :=
  C3_time_axis_amended (WavFile.mk 1 1 [100, 0, 200, 0]) initState
    [100, 200] (by decide) (by decide) (by decide)

/-- Claim C10: a multi-channel file with fr frames and c channels (2·fr·c
sample bytes) is flattened into one interleaved sequence of fr·c samples,
and the time axis runs from 0 to (fr·c)/sr — c times the real duration
fr/sr of the file. -/
theorem C10_channels_interleaved (f : WavFile) (s : AppState) (fr c : ℕ)
    (raws : List ℤ) (hch : f.nchannels = c) (hfr : f.framerate ≠ 0)
    (hlen : f.bytes.length = 2 * (fr * c)) (h2 : 2 ≤ fr * c)
    (hdec : frombufferInt16 f.bytes = some raws) :
    raws.length = fr * c ∧
    ∃ ts, ((load_audio (some f) s).1).time = some ts ∧
      ts.length = fr * c ∧ ts.head? = some 0 ∧
      ts.getLast? = some (((fr * c : ℕ) : ℚ) / (f.framerate : ℚ)) ∧
      ((fr * c : ℕ) : ℚ) / (f.framerate : ℚ) =
        ((c : ℕ) : ℚ) * (((fr : ℕ) : ℚ) / (f.framerate : ℚ)) := by
  have hps := hdec
  simp only [frombufferInt16, Option.map_eq_some'] at hps
  rcases hps with ⟨ps, hps, hmap⟩
  rcases pairBytes_flatten f.bytes ps hps with ⟨_, hlen2⟩
  have hrawlen : raws.length = fr * c := by
    rw [← hmap, List.length_map]
    exact Nat.eq_of_mul_eq_mul_left (by norm_num)
      (hlen2.symm.trans hlen)
  refine ⟨hrawlen, ?_⟩
  rcases hraws : raws with _ | ⟨r, rs⟩
  · exfalso
    rw [hraws] at hrawlen
    simp only [List.length_nil] at hrawlen
    rw [← hrawlen] at h2
    exact absurd h2 (by norm_num)
  subst hraws
  obtain ⟨m, hm⟩ : ∃ m, npMax ((r :: rs).map npAbsInt16) = some m :=
    ⟨_, rfl⟩
  rw [load_audio_fst, loadBody_success f s (r :: rs) m hdec hm hfr, hrawlen]
  refine ⟨_, rfl, linspace_length _ _, linspace_head? _ _ (by omega),
    linspace_getLast? _ _ h2, ?_⟩
  rw [Nat.cast_mul, mul_comm ((fr : ℚ)) ((c : ℚ)), mul_div_assoc]

/-- Witness for C10 at a one-frame stereo file at 4 Hz. -/
theorem C10_witness :
    ([100, 200] : List ℤ).length = 1 * 2 ∧
    ∃ ts, ((load_audio (some (WavFile.mk 4 2 [100, 0, 200, 0]))
        initState).1).time = some ts ∧
      ts.length = 1 * 2 ∧ ts.head? = some 0 ∧
      ts.getLast? = some (((1 * 2 : ℕ) : ℚ) /
        ((WavFile.mk 4 2 [100, 0, 200, 0]).framerate : ℚ)) ∧
      ((1 * 2 : ℕ) : ℚ) / ((WavFile.mk 4 2 [100, 0, 200, 0]).framerate : ℚ) =
        ((2 : ℕ) : ℚ) * (((1 : ℕ) : ℚ) /
          ((WavFile.mk 4 2 [100, 0, 200, 0]).framerate : ℚ)) :=
  C10_channels_interleaved (WavFile.mk 4 2 [100, 0, 200, 0]) initState 1 2
    [100, 200] rfl (by decide) (by decide) (by decide) (by decide)

end Interfaz
